import Mathlib

/-!
Shallow embedding of src/Data_Preprocessing/import_excels_to_db.py
(PrivNurseAI batch Excel-to-database importer).

Modelling conventions:
* A spreadsheet cell is `Cell`: Python `None`, a pandas NA/NaN marker, an
  integer, a string, or a datetime object (pandas `Timestamp` as read from
  Excel).  A row is an association list from column-header strings to cells;
  `rowGet` models `pandas.Series.get` (absent column gives Python `None`,
  i.e. `Option.none`).
* Machine behaviour of the external libraries (`int(...)`, `float(...)`,
  `str.zfill`, `pd.to_datetime`) is modelled by explicit executable
  functions over strings and naturals, documented at each definition.
* The SQLAlchemy session (`sessionmaker(autocommit=False, autoflush=False)`,
  source line 74) is modelled by three table snapshots:
  `committed` (durable rows), `flushed` (rows visible to in-transaction
  queries: committed rows plus flushed INSERTs/dirty updates), and
  `pending` (objects passed to `db.add` but not yet flushed; with
  autoflush disabled these are invisible to `db.query`).  `db.flush()`
  moves every pending object into `flushed`; `db.commit()` flushes and
  then copies `flushed` into `committed`; `db.rollback()` restores
  `flushed` from `committed` and drops `pending`.  `db.get(Patient, id)`
  consults the identity map, i.e. the `flushed` view.
-/

namespace PrivNurse

/-- A raw spreadsheet cell as produced by `pd.read_excel`. -/
inductive Cell where
  | noneV : Cell
  | na : Cell
  | int (n : Int) : Cell
  | str (s : String) : Cell
  | dt (y m d hh mi ss : Nat) : Cell
deriving DecidableEq, Repr

/-- A row: association list column-header to cell (`pd.Series` built from
`itertuples`'s `_asdict`). -/
def Row : Type := List (String × Cell)

instance : DecidableEq Row := by
  unfold Row
  infer_instance

/-- `r.get(col)` with no default: `Option.none` models Python `None` for an
absent column. -/
def rowGet (r : Row) (col : String) : Option Cell :=
  (List.find? (fun kv => kv.1 == col) r).map (fun kv => kv.2)

/-- `r.get(col, "")`: absent column falls back to the empty string. -/
def rowGetD (r : Row) (col : String) : Cell :=
  (rowGet r col).getD (Cell.str "")

/-- Two-digit zero padding, used only to render datetime cells. -/
def pad2 (n : Nat) : String :=
  if n < 10 then "0" ++ toString n else toString n

/-- Python `str(x)` on a cell.  `str(None) = "None"`, `str(nan) = "nan"`,
integers render in decimal, a pandas `Timestamp` renders as
`YYYY-MM-DD HH:MM:SS`. -/
def pyStr : Cell → String
  | Cell.noneV => "None"
  | Cell.na => "nan"
  | Cell.int n => toString n
  | Cell.str s => s
  | Cell.dt y m d hh mi ss =>
      toString y ++ "-" ++ pad2 m ++ "-" ++ pad2 d ++ " " ++
        pad2 hh ++ ":" ++ pad2 mi ++ ":" ++ pad2 ss

/-! Python string methods (`replace`, `strip`, `endswith`, `zfill`,
`split`, `startswith`) are modelled by structurally recursive functions
over character lists, so that every definition evaluates inside the
kernel. -/

/-- Delete every (non-overlapping, left-to-right) occurrence of `pat`,
i.e. Python `s.replace(pat, "")`.  The first argument is fuel, always
called with the length of the scanned list. -/
def removeSub (pat : List Char) : Nat → List Char → List Char
  | 0, cs => cs
  | _ + 1, [] => []
  | fuel + 1, c :: cs =>
      if pat.length ≠ 0 ∧ pat.isPrefixOf (c :: cs) then
        removeSub pat fuel ((c :: cs).drop pat.length)
      else
        c :: removeSub pat fuel cs

/-- Python `s.replace(pat, "")` at string level. -/
def strRemove (s pat : String) : String :=
  String.mk (removeSub pat.data s.data.length s.data)

/-- Python `s.strip()`: drop whitespace from both ends. -/
def strStrip (s : String) : String :=
  let ds := s.data.dropWhile Char.isWhitespace
  String.mk ((ds.reverse.dropWhile Char.isWhitespace).reverse)

/-- `clean_text` (source lines 101-112): `None` and NA become `""`;
otherwise stringify, delete paragraph tags, strip surrounding
whitespace. -/
def clean_text : Cell → String
  | Cell.noneV => ""
  | Cell.na => ""
  | x => strStrip (strRemove (strRemove (pyStr x) "</p>") "<p>")

/-- `clean_text(r.get(col, ""))`, the per-column cleaning used by every
importer. -/
def cleanCol (r : Row) (col : String) : String :=
  clean_text (rowGetD r col)

/-- Numeric value of a list of digit characters. -/
def natOfDigitChars (cs : List Char) : Nat :=
  cs.foldl (fun a c => a * 10 + (c.toNat - 48)) 0

/-- Digit run to number; fails on the empty list or any non-digit. -/
def digitsToNat (cs : List Char) : Option Nat :=
  if cs.length ≠ 0 ∧ cs.all Char.isDigit then some (natOfDigitChars cs)
  else Option.none

/-- Split a character list at every occurrence of `sep` (Python
`s.split(sep)` for a single-character separator, and `String.splitOn`). -/
def splitOnChar (sep : Char) (cs : List Char) : List (List Char) :=
  cs.foldr
    (fun c acc =>
      match acc with
      | [] => [[c]]
      | a :: rest => if c = sep then [] :: a :: rest else (c :: a) :: rest)
    [[]]

/-- Sign handling shared by the numeral parsers: strip one leading `+` or
`-` and record the sign. -/
def splitSign : List Char → Bool × List Char
  | '-' :: cs => (true, cs)
  | '+' :: cs => (false, cs)
  | cs => (false, cs)

def applySign (neg : Bool) (n : Nat) : Int :=
  if neg then -(n : Int) else Int.ofNat n

/-- Python `int(s)` on a string: optional surrounding whitespace, optional
sign, then decimal digits.  (Underscore separators of Python literals are
not modelled; the source data never contains them.) -/
def pyIntOfStr (s : String) : Option Int :=
  let (neg, cs) := splitSign (strStrip s).data
  (digitsToNat cs).map (applySign neg)

/-- Truncation `int(float(s))` for a fixed-point numeral
`[sign]digits[.digits]`: truncation toward zero discards the fractional
digits, so the value is the signed integer part.  (Exponent notation and
inf/nan spellings accepted by Python `float` are not modelled; the Excel
artifacts in scope are plain `"2000.0"`-style numerals.) -/
def pyFloatTruncOfStr (s : String) : Option Int :=
  let (neg, cs) := splitSign (strStrip s).data
  let core : Option Nat :=
    match splitOnChar '.' cs with
    | [a] => digitsToNat a
    | [a, b] =>
        if a.length = 0 then
          if b.length ≠ 0 ∧ b.all Char.isDigit then some 0 else Option.none
        else if b.length = 0 ∨ b.all Char.isDigit then digitsToNat a
        else Option.none
    | _ => Option.none
  core.map (applySign neg)

/-- The designated key column of every spreadsheet. -/
def keyColumn : String := "序號"

/-- `get_mrn_from_row` (source lines 115-132): read the key column; `None`
and NA give `None`; `int(v)` (identity on integers, strict decimal parse on
strings), falling back to `int(float(v))`; every failure is caught and
reported as `None`.  The model is a total function: the source catches all
exceptions, so no error can escape. -/
def get_mrn_from_row (r : Row) : Option Int :=
  match rowGet r keyColumn with
  | Option.none => Option.none
  | some Cell.noneV => Option.none
  | some Cell.na => Option.none
  | some (Cell.int n) => some n
  | some (Cell.dt _ _ _ _ _ _) => Option.none
  | some (Cell.str s) =>
      match pyIntOfStr s with
      | some n => some n
      | Option.none => pyFloatTruncOfStr s

/-! ## Datetimes -/

/-- A naive datetime (second precision), the payload of `pd.Timestamp` /
`datetime.datetime` values flowing through the importer. -/
structure DT where
  y : Nat
  m : Nat
  d : Nat
  hh : Nat
  mi : Nat
  ss : Nat
deriving DecidableEq, Repr

/-- A calendar date (`datetime.date`). -/
structure DateD where
  y : Nat
  m : Nat
  d : Nat
deriving DecidableEq, Repr

def isLeap (y : Nat) : Bool :=
  (y % 4 == 0 && y % 100 != 0) || y % 400 == 0

def daysInMonth (y m : Nat) : Nat :=
  if m == 2 then (if isLeap y then 29 else 28)
  else if m == 4 || m == 6 || m == 9 || m == 11 then 30
  else 31

/-- Calendar validity of a year/month/day/hour/minute combination, as
enforced by `strptime`-style parsing. -/
def validYMDHM (y m d hh mi : Nat) : Bool :=
  1 ≤ m && m ≤ 12 && 1 ≤ d && d ≤ daysInMonth y m && hh ≤ 23 && mi ≤ 59

/-- `pd.to_datetime(s, format="%Y%m%d%H%M", errors="coerce")`: the string
must be exactly twelve digits (four-digit year, two digits each for month,
day, hour, minute) naming a valid calendar instant; anything else coerces
to NaT, modelled as `Option.none`.  (The bounded representable range of
pandas timestamps is not modelled; the data in scope is in-century.) -/
def parseYMDHM (s : String) : Option DT :=
  let cs := s.data
  if cs.length = 12 ∧ cs.all Char.isDigit then
    let y := natOfDigitChars (cs.take 4)
    let m := natOfDigitChars ((cs.drop 4).take 2)
    let d := natOfDigitChars ((cs.drop 6).take 2)
    let hh := natOfDigitChars ((cs.drop 8).take 2)
    let mi := natOfDigitChars ((cs.drop 10).take 2)
    if validYMDHM y m d hh mi then some ⟨y, m, d, hh, mi, 0⟩ else Option.none
  else
    Option.none

/-- One dash-separated date component list to a date, with validity. -/
def dateOfParts : List (List Char) → Option DateD
  | [a, b, c] =>
      match digitsToNat a, digitsToNat b, digitsToNat c with
      | some y, some m, some d =>
          if a.length = 4 ∧ validYMDHM y m d 0 0 then some ⟨y, m, d⟩
          else Option.none
      | _, _, _ => Option.none
  | _ => Option.none

def timeOfParts : List (List Char) → Option (Nat × Nat × Nat)
  | [a, b] =>
      match digitsToNat a, digitsToNat b with
      | some hh, some mi =>
          if hh ≤ 23 ∧ mi ≤ 59 then some (hh, mi, 0) else Option.none
      | _, _ => Option.none
  | [a, b, c] =>
      match digitsToNat a, digitsToNat b, digitsToNat c with
      | some hh, some mi, some ss =>
          if hh ≤ 23 ∧ mi ≤ 59 ∧ ss ≤ 59 then some (hh, mi, ss) else Option.none
      | _, _, _ => Option.none
  | _ => Option.none

/-- Flexible string parse behind `pd.to_datetime(v, errors="coerce")` with
no format argument: modelled for ISO-style inputs
`YYYY-MM-DD[ HH:MM[:SS]]` with `-` or `/` date separators, which covers the
reply-timestamp and lab-date columns in scope.  Unrecognised strings
coerce to NaT (`Option.none`). -/
def parseFlexibleStr (s : String) : Option DT :=
  let cs := (strStrip s).data.map (fun c => if c = '/' then '-' else c)
  match splitOnChar ' ' cs with
  | [ds] =>
      (dateOfParts (splitOnChar '-' ds)).map (fun d => ⟨d.y, d.m, d.d, 0, 0, 0⟩)
  | [ds, ts] =>
      match dateOfParts (splitOnChar '-' ds), timeOfParts (splitOnChar ':' ts) with
      | some d, some (hh, mi, ss) => some ⟨d.y, d.m, d.d, hh, mi, ss⟩
      | _, _ => Option.none
  | _ => Option.none

/-- `pd.to_datetime(v, errors="coerce")` on a cell (`v = r.get(col)`):
`None`, NA and non-datetime-like values coerce to NaT; datetime cells pass
through; strings go through the flexible parse.  (Integer cells are
interpreted by pandas as nanosecond epochs — irrelevant for the clinical
columns in scope — and are modelled as NaT.) -/
def pdToDatetime : Option Cell → Option DT
  | Option.none => Option.none
  | some Cell.noneV => Option.none
  | some Cell.na => Option.none
  | some (Cell.int _) => Option.none
  | some (Cell.dt y m d hh mi ss) => some ⟨y, m, d, hh, mi, ss⟩
  | some (Cell.str s) => parseFlexibleStr s

/-! ## Nursing time normalization (source lines 378-387) -/

/-- `str.zfill(width)` for the unsigned strings in scope: left-pad with
`'0'` to the requested width. -/
def zfill (w : Nat) (s : String) : String :=
  if w ≤ s.data.length then s
  else String.mk (List.replicate (w - s.data.length) '0' ++ s.data)

/-- Python `s.endswith(suf)`. -/
def strEndsWith (s suf : String) : Bool :=
  suf.data.isSuffixOf s.data

/-- Python `s[:-n]` (`t[:-2]` in the source): drop the last `n`
characters. -/
def strDropRight (s : String) (n : Nat) : String :=
  String.mk (s.data.take (s.data.length - n))

/-- Time-column normalization (source lines 382-385): strip colon
separators, strip a trailing `".0"` float artifact, left-pad to four
digits. -/
def normalizeTime (t : String) : String :=
  let t := String.mk (t.data.filter (fun c => c ≠ ':'))
  let t := if strEndsWith t ".0" then strDropRight t 2 else t
  zfill 4 t

/-- `str(r.get("日期", "")).strip()` — the raw date column as a string. -/
def nursingDateStr (r : Row) : String :=
  strStrip (pyStr (rowGetD r "日期"))

/-- The raw time column as a string, before normalization. -/
def nursingTimeStr (r : Row) : String :=
  strStrip (pyStr (rowGetD r "時間"))

/-- The composed nursing timestamp:
`pd.to_datetime(f"{d}{t}", format="%Y%m%d%H%M", errors="coerce")`. -/
def composedTs (r : Row) : Option DT :=
  parseYMDHM (nursingDateStr r ++ normalizeTime (nursingTimeStr r))

/-! ## Persisted record kinds (from models, as used by the importer) -/

/-- Configured import-user id (`IMPORT_USER_ID`, default 1). -/
def IMPORT_USER_ID : Nat := 1

structure Patient where
  id : Nat
  medical_record_no : String
  name : String
  patient_category : String
  gender : String
  weight : Nat
  department : String
  birthday : DateD
  created_by : Nat
deriving DecidableEq, Repr

structure Diag where
  category : String
  diagnosis : String
  code : Option String
  date_diagnosed : Option DateD
deriving DecidableEq, Repr

structure DischargeNote where
  patient_id : Nat
  created_by : Nat
  chief_complaint : String
  treatment_course : String
  diagnosis : List Diag
deriving DecidableEq, Repr

structure ConsultationRecord where
  patient_id : Nat
  consultation_date : DT
  original_content : String
  nurse_confirmation : String
  created_by : Nat
  status : String
deriving DecidableEq, Repr

structure LabReport where
  patient_id : Nat
  test_name : String
  test_date : DateD
  result_value : String
  flag : String
deriving DecidableEq, Repr

structure NursingNote where
  patient_id : Nat
  record_time : DT
  record_type : String
  content : String
  created_by : Nat
deriving DecidableEq, Repr

/-- One snapshot of the five tables. -/
structure Tables where
  patients : List Patient
  notes : List DischargeNote
  consults : List ConsultationRecord
  labs : List LabReport
  nursing : List NursingNote
deriving DecidableEq, Repr

def Tables.empty : Tables := ⟨[], [], [], [], []⟩

/-- Row-wise concatenation of two snapshots (flushing appends pending
INSERTs after the already-visible rows, in insertion order). -/
def Tables.append (a b : Tables) : Tables :=
  ⟨a.patients ++ b.patients, a.notes ++ b.notes, a.consults ++ b.consults,
    a.labs ++ b.labs, a.nursing ++ b.nursing⟩

/-- The SQLAlchemy session plus the process state threading through the
importer run.

* `committed` — durable rows (survive `db.rollback()`).
* `flushed` — rows visible to `db.query` / the identity map: committed
  rows plus flushed writes of the open transaction.  With
  `autoflush=False` (source line 74) a query never flushes first, so
  `pending` stays invisible to it.
* `pending` — objects added with `db.add` and not yet flushed.
* `nextPid` — the autoincrement counter assigned at flush time.
* `cache` — the `PatientCache` association (mrn to patient id); `set`
  prepends, `get` takes the first hit, giving dict semantics.
* `oracle` — scripted outcomes for successive `db.commit()` attempts
  (exhausted oracle means success), modelling store-level failures.
* `calls`, `trig` — ghost instrumentation (no source counterpart):
  every `inserted` count passed to `maybe_commit`, and the counts at
  which a commit was actually attempted. -/
structure Session where
  committed : Tables
  flushed : Tables
  pending : Tables
  nextPid : Nat
  cache : List (Int × Nat)
  oracle : List Bool
  calls : List Nat
  trig : List Nat
deriving DecidableEq, Repr

/-- A fresh session over an empty store; ids start at 1. -/
def Session.init : Session :=
  ⟨Tables.empty, Tables.empty, Tables.empty, 1, [], [], [], []⟩

/-- All rows of a table regardless of flush state (used to state claims
about what the run as a whole has staged). -/
def allNotes (s : Session) : List DischargeNote :=
  s.flushed.notes ++ s.pending.notes

def allConsults (s : Session) : List ConsultationRecord :=
  s.flushed.consults ++ s.pending.consults

def allNursing (s : Session) : List NursingNote :=
  s.flushed.nursing ++ s.pending.nursing

/-- `db.flush()`: move every pending object into the visible transaction
state. -/
def flushAll (s : Session) : Session :=
  { s with flushed := s.flushed.append s.pending, pending := Tables.empty }

/-- `db.rollback()`: restore the visible state from the durable state and
expunge pending objects.  The python-level `PatientCache` is NOT touched
by a rollback. -/
def rollbackOp (s : Session) : Session :=
  { s with flushed := s.committed, pending := Tables.empty }

/-- A succeeding `db.commit()`: flush, then make the flushed state
durable. -/
def commitNow (s : Session) : Session :=
  { s with flushed := s.flushed.append s.pending, pending := Tables.empty,
           committed := s.flushed.append s.pending }

/-- `db.commit()`: the next scripted oracle outcome decides success
(an exhausted oracle succeeds); on failure the store raises and the
session is left un-reverted (the catcher must roll back). -/
def commitOp (s : Session) : Except Session Session :=
  match s.oracle with
  | [] => Except.ok (commitNow s)
  | ok :: rest =>
      if ok then Except.ok (commitNow { s with oracle := rest })
      else Except.error { s with oracle := rest }

/-! ## Patient cache and `get_or_create_patient` -/

/-- `PatientCache.get` (source lines 145-146). -/
def cacheGet (c : List (Int × Nat)) (mrn : Int) : Option Nat :=
  (List.find? (fun kv => kv.1 == mrn) c).map (fun kv => kv.2)

/-- `PatientCache.set` (source lines 148-149): dict update, modelled by
prepending (lookup takes the first hit). -/
def cacheSet (c : List (Int × Nat)) (mrn : Int) (pid : Nat) : List (Int × Nat) :=
  (mrn, pid) :: c

/-- The placeholder Patient built on first observation of a key
(source lines 174-183). -/
def mkDefaultPatient (pid : Nat) (mrn : Int) : Patient :=
  ⟨pid, toString mrn, toString mrn, "NHI General", "M", 0, "N/A",
    ⟨2000, 1, 1⟩, IMPORT_USER_ID⟩

/-- The fall-through of `get_or_create_patient` (source lines 166-187):
`db.query(Patient).filter(medical_record_no == str(mrn)).first()`; on a
hit, cache and return it; on a miss, add the placeholder patient and
`db.flush()` — which flushes every pending object of the session and
makes the new autoincrement id available — then cache and return it. -/
def lookupOrCreate (s : Session) (mrn : Int) : Patient × Session :=
  match List.find? (fun p => p.medical_record_no == toString mrn)
      s.flushed.patients with
  | some p => (p, { s with cache := cacheSet s.cache mrn p.id })
  | Option.none =>
      let p := mkDefaultPatient s.nextPid mrn
      let s := flushAll s
      (p, { s with
              flushed := { s.flushed with patients := s.flushed.patients ++ [p] },
              nextPid := s.nextPid + 1,
              cache := cacheSet s.cache mrn p.id })

/-- `get_or_create_patient` (source lines 152-187).
Cache hit: `db.get(Patient, cached)` consults the identity map (the
flushed view); a resolving id returns that patient with no writes.  A
stale or missing cache entry falls through to `lookupOrCreate`. -/
def get_or_create_patient (s : Session) (mrn : Int) : Patient × Session :=
  match cacheGet s.cache mrn with
  | some pid =>
      match List.find? (fun p => p.id == pid) s.flushed.patients with
      | some p => (p, s)
      | Option.none => lookupOrCreate s mrn
  | Option.none => lookupOrCreate s mrn

/-! ## `maybe_commit` (source lines 191-200) -/

/-- Default configured batch size (`COMMIT_BATCH`, default 2000). -/
def COMMIT_BATCH : Nat := 2000

/-- `maybe_commit(db, inserted, label, row_i)`: return at once unless
`inserted % COMMIT_BATCH == 0`; otherwise `db.commit()`, and on a commit
failure `db.rollback()` then re-raise.  The ghost fields record the count
passed (`calls`) and the counts at which a commit was attempted (`trig`);
log lines are omitted. -/
def maybe_commit (batch : Nat) (s : Session) (inserted : Nat) :
    Except Session Session :=
  if inserted % batch ≠ 0 then
    Except.ok { s with calls := s.calls ++ [inserted] }
  else
    match commitOp { s with calls := s.calls ++ [inserted],
                            trig := s.trig ++ [inserted] } with
    | Except.ok s' => Except.ok s'
    | Except.error s' => Except.error (rollbackOp s')

/-! ## Importers (source lines 204-437)

Each importer folds over its rows threading `(session, inserted, skipped)`;
a commit failure propagates as `Except.error` carrying the session.  Row
indices are used by the source only for log lines and are omitted. -/

/-- The tail every non-skipped row shares: call `maybe_commit` with the
running inserted count and propagate a commit failure. -/
def stageResult (batch : Nat) (s : Session) (ins sk : Nat) :
    Except Session (Session × Nat × Nat) :=
  match maybe_commit batch s ins with
  | Except.ok s' => Except.ok (s', ins, sk)
  | Except.error e => Except.error e

/-- Replace the first list element satisfying `p` (the object returned by
`query(...).first()` is mutated in place). -/
def replaceFirst (p : α → Bool) (f : α → α) : List α → List α
  | [] => []
  | x :: xs => if p x then f x :: xs else x :: replaceFirst p f xs

/-- The diagnosis list of a summary row: one entry per non-empty field
among the four diagnosis columns, in source order, with null code and
date (source lines 224-241). -/
def buildDiagnosis (r : Row) : List Diag :=
  let add (cat : String) (col : String) : List Diag :=
    let t := cleanCol r col
    if t ≠ "" then [⟨cat, t, Option.none, Option.none⟩] else []
  add "Primary" "主要診斷" ++ add "Secondary" "次要診斷" ++
    add "Past" "過去病史" ++ add "Present" "現在病史"

/-- One summary row (source lines 210-261).  The DischargeNote lookup is
`db.query(DischargeNote).filter(patient_id == pid).first()`: with
autoflush disabled it sees only `flushed` rows; a hit is overwritten in
full, a miss appends a fresh pending note.  The row counts as inserted
regardless of how empty its text fields are. -/
def summaryRowAction (batch : Nat) (s : Session) (ins sk : Nat) (r : Row) :
    Except Session (Session × Nat × Nat) :=
  match get_mrn_from_row r with
  | Option.none => Except.ok (s, ins, sk + 1)
  | some mrn =>
      let (p, s) := get_or_create_patient s mrn
      let chief := cleanCol r "主訴"
      let treatment := cleanCol r "治療經過"
      let diags := buildDiagnosis r
      let s :=
        match List.find? (fun n => n.patient_id == p.id) s.flushed.notes with
        | some _ =>
            let upd := fun n : DischargeNote =>
              { n with chief_complaint := chief, treatment_course := treatment,
                       diagnosis := diags }
            let ns := replaceFirst (fun n => n.patient_id == p.id) upd s.flushed.notes
            { s with flushed := { s.flushed with notes := ns } }
        | Option.none =>
            let ns := s.pending.notes ++ [⟨p.id, IMPORT_USER_ID, chief, treatment, diags⟩]
            { s with pending := { s.pending with notes := ns } }
      stageResult batch s (ins + 1) sk

def import_summaries (batch : Nat) (s : Session) (ins sk : Nat) :
    List Row → Except Session (Session × Nat × Nat)
  | [] => Except.ok (s, ins, sk)
  | r :: rest =>
      match summaryRowAction batch s ins sk r with
      | Except.error e => Except.error e
      | Except.ok (s', ins', sk') => import_summaries batch s' ins' sk' rest

/-- One consultation row (source lines 272-309): skip on unresolvable key;
skip on NaT reply-timestamp; skip on empty cleaned reply-content; else
append a fresh record whose confirmation field duplicates the content and
whose status is "confirmed". -/
def consultRowAction (batch : Nat) (s : Session) (ins sk : Nat) (r : Row) :
    Except Session (Session × Nat × Nat) :=
  match get_mrn_from_row r with
  | Option.none => Except.ok (s, ins, sk + 1)
  | some mrn =>
      let (p, s) := get_or_create_patient s mrn
      match pdToDatetime (rowGet r "回覆時間") with
      | Option.none => Except.ok (s, ins, sk + 1)
      | some ts =>
          let content := cleanCol r "回覆內容"
          if content = "" then Except.ok (s, ins, sk + 1)
          else
            let s := { s with pending := { s.pending with consults :=
                s.pending.consults ++
                  [⟨p.id, ts, content, content, IMPORT_USER_ID, "confirmed"⟩] } }
            stageResult batch s (ins + 1) sk

def import_consults (batch : Nat) (s : Session) (ins sk : Nat) :
    List Row → Except Session (Session × Nat × Nat)
  | [] => Except.ok (s, ins, sk)
  | r :: rest =>
      match consultRowAction batch s ins sk r with
      | Except.error e => Except.error e
      | Except.ok (s', ins', sk') => import_consults batch s' ins' sk' rest

/-- One lab row (source lines 320-357): skip on unresolvable key, NaT test
date, or test name and result both empty; else append a record with fixed
flag "NORMAL". -/
def labRowAction (batch : Nat) (s : Session) (ins sk : Nat) (r : Row) :
    Except Session (Session × Nat × Nat) :=
  match get_mrn_from_row r with
  | Option.none => Except.ok (s, ins, sk + 1)
  | some mrn =>
      let (p, s) := get_or_create_patient s mrn
      match pdToDatetime (rowGet r "檢驗日期") with
      | Option.none => Except.ok (s, ins, sk + 1)
      | some ts =>
          let test_name := cleanCol r "檢驗項目"
          let result := cleanCol r "檢驗結果"
          if test_name = "" ∧ result = "" then Except.ok (s, ins, sk + 1)
          else
            let s := { s with pending := { s.pending with labs :=
                s.pending.labs ++
                  [⟨p.id, test_name, ⟨ts.y, ts.m, ts.d⟩, result, "NORMAL"⟩] } }
            stageResult batch s (ins + 1) sk

def import_labs (batch : Nat) (s : Session) (ins sk : Nat) :
    List Row → Except Session (Session × Nat × Nat)
  | [] => Except.ok (s, ins, sk)
  | r :: rest =>
      match labRowAction batch s ins sk r with
      | Except.error e => Except.error e
      | Except.ok (s', ins', sk') => import_labs batch s' ins' sk' rest

/-- The fixed SOAP column mapping (source lines 409-415). -/
def soapMapping : List (String × String) :=
  [("RECORD_S", "Subjective"), ("RECORD_O", "Objective"),
    ("RECORD_I", "Intervention"), ("RECORD_E", "Evaluation"),
    ("RECORD_N", "NarrativeNote")]

/-- The records one successfully-timestamped nursing row stages (source
lines 393-428), in source order: the VitalSign record when both the
category and value columns clean to non-empty, then one record per
non-empty SOAP column. -/
def nursingRowRecords (pid : Nat) (ts : DT) (r : Row) : List NursingNote :=
  let vt := cleanCol r "類別"
  let vv := cleanCol r "數值紀錄"
  (if vt ≠ "" ∧ vv ≠ "" then
      [⟨pid, ts, "VitalSign", "type:" ++ vt ++ "|value:" ++ vv, IMPORT_USER_ID⟩]
    else []) ++
    soapMapping.filterMap (fun cr =>
      let txt := cleanCol r cr.1
      if txt ≠ "" then some ⟨pid, ts, cr.2, txt, IMPORT_USER_ID⟩
      else Option.none)

/-- One nursing row (source lines 368-435): resolve the key, resolve the
patient, compose the timestamp (skip the row if it fails to parse), stage
the row's records — `inserted` grows by one per staged record — and call
`maybe_commit` with the running count (also when the row staged
nothing). -/
def nursingRowAction (batch : Nat) (s : Session) (ins sk : Nat) (r : Row) :
    Except Session (Session × Nat × Nat) :=
  match get_mrn_from_row r with
  | Option.none => Except.ok (s, ins, sk + 1)
  | some mrn =>
      let (p, s) := get_or_create_patient s mrn
      match composedTs r with
      | Option.none => Except.ok (s, ins, sk + 1)
      | some ts =>
          let recs := nursingRowRecords p.id ts r
          let s := { s with pending := { s.pending with nursing :=
              s.pending.nursing ++ recs } }
          stageResult batch s (ins + recs.length) sk

def import_nursing (batch : Nat) (s : Session) (ins sk : Nat) :
    List Row → Except Session (Session × Nat × Nat)
  | [] => Except.ok (s, ins, sk)
  | r :: rest =>
      match nursingRowAction batch s ins sk r with
      | Except.error e => Except.error e
      | Except.ok (s', ins', sk') => import_nursing batch s' ins' sk' rest

/-! ## `main` (source lines 441-483) -/

/-- The `try` block of `main`: the four importer passes in fixed order,
each followed by an unconditional `db.commit()`.  (`db_ping` and the
spreadsheet reading are external glue and omitted.) -/
def mainBody (batch : Nat) (s : Session) (rS rC rL rN : List Row) :
    Except Session Session :=
  match import_summaries batch s 0 0 rS with
  | Except.error e => Except.error e
  | Except.ok (s, _, _) =>
      match commitOp s with
      | Except.error e => Except.error e
      | Except.ok s =>
          match import_consults batch s 0 0 rC with
          | Except.error e => Except.error e
          | Except.ok (s, _, _) =>
              match commitOp s with
              | Except.error e => Except.error e
              | Except.ok s =>
                  match import_labs batch s 0 0 rL with
                  | Except.error e => Except.error e
                  | Except.ok (s, _, _) =>
                      match commitOp s with
                      | Except.error e => Except.error e
                      | Except.ok s =>
                          match import_nursing batch s 0 0 rN with
                          | Except.error e => Except.error e
                          | Except.ok (s, _, _) => commitOp s

/-- A python exception escaping `main`. -/
inductive PyErr where
  | nameError (n : String)
  | storeError
deriving DecidableEq, Repr

/-- The names bound at module level in
src/Data_Preprocessing/import_excels_to_db.py (imports, assignments and
defs; double-underscore builtins omitted).  `LOG_PATH` is referenced on
source line 483 but never bound. -/
def moduleGlobals : List String :=
  ["annotations", "os", "sys", "json", "logging", "RotatingFileHandler",
   "Path", "datetime", "date", "Dict", "Optional", "Tuple", "pd",
   "create_engine", "text", "sessionmaker", "Session", "SQLAlchemyError",
   "Patient", "DischargeNote", "ConsultationRecord", "LabReport",
   "NursingNote", "BASE_DIR", "SUMMARY_DIR", "CONSULT_DIR", "LAB_DIR",
   "NURSING_DIR", "SUMMARY_PREFIX", "CONSULT_PREFIX", "LAB_PREFIX",
   "NURSING_PREFIX", "PART_RANGE", "IMPORT_USER_ID", "DATABASE_URL",
   "COMMIT_BATCH", "setup_logger", "logger", "engine", "SessionLocal",
   "db_ping", "read_parts", "clean_text", "get_mrn_from_row",
   "PatientCache", "get_or_create_patient", "maybe_commit",
   "import_summaries", "import_consults", "import_labs", "import_nursing",
   "main"]

/-- Result of one `main()` call: the exception escaping it (if any),
whether `db.close()` ran, and the final session state. -/
structure MainResult where
  err : Option PyErr
  dbClosed : Bool
  final : Session
deriving DecidableEq, Repr

/-- `main` (source lines 441-483): run the try block; on any exception
`db.rollback()` and re-raise; in the `finally` block `db.close()`, log,
and evaluate an f-string mentioning `LOG_PATH` — when that name is not
bound at module level, the lookup raises `NameError`, which (being raised
inside `finally`) replaces any in-flight exception. -/
def main (batch : Nat) (s : Session) (rS rC rL rN : List Row) : MainResult :=
  let bodyRes := mainBody batch s rS rC rL rN
  let s1 := match bodyRes with
    | Except.ok s' => s'
    | Except.error s' => rollbackOp s'
  if moduleGlobals.contains "LOG_PATH" then
    { err := match bodyRes with
        | Except.ok _ => Option.none
        | Except.error _ => some PyErr.storeError,
      dbClosed := true, final := s1 }
  else
    { err := some (PyErr.nameError "LOG_PATH"), dbClosed := true, final := s1 }

/-- Key `mrn` is resolved to `pid`: the cache maps it there and some
store-visible patient carries that id.  Established by the first
`get_or_create_patient` call for the key; every later call in a resolved
state is a pure read. -/
def keyResolved (mrn : Int) (pid : Nat) (s : Session) : Prop :=
  cacheGet s.cache mrn = some pid ∧ ∃ q ∈ s.flushed.patients, q.id = pid

instance (mrn : Int) (pid : Nat) (s : Session) :
    Decidable (keyResolved mrn pid s) := by
  unfold keyResolved
  infer_instance

/-- The commit-trigger trace invariant: commits were attempted at exactly
the passed counts divisible by the batch size. -/
def traceOK (batch : Nat) (s : Session) : Prop :=
  s.trig = s.calls.filter (fun c => c % batch == 0)

/-- Collapse an importer result to the session it carries. -/
def runState : Except Session (Session × Nat × Nat) → Session
  | Except.ok x => x.1
  | Except.error e => e

/-- A nursing row with a resolvable key and a parseable timestamp whose
content columns are all empty: it stages no record, so `maybe_commit` is
reached with the running count unchanged. -/
def nursingZeroRow : Row :=
  [("序號", Cell.int 2000), ("日期", Cell.str "20240101"),
    ("時間", Cell.str "930")]

/-- Two identical summary rows with the same key: the failing input for
the DischargeNote upsert. -/
def dupSummaryRow : Row :=
  [("序號", Cell.int 2000), ("主訴", Cell.str "chest pain")]

/-- A nursing row with both vital columns and exactly the Subjective and
NarrativeNote columns non-empty. -/
def nursingThreeRow : Row :=
  [("序號", Cell.int 2000), ("日期", Cell.str "20240101"),
    ("時間", Cell.str "09:30"), ("類別", Cell.str "TPR"),
    ("數值紀錄", Cell.str "36.5"), ("RECORD_S", Cell.str "alert"),
    ("RECORD_N", Cell.str "resting")]

/-- A nursing row with a resolvable key whose time column cannot be part
of a YYYYMMDDHHMM timestamp. -/
def nursingBadTimeRow : Row :=
  [("序號", Cell.int 2000), ("日期", Cell.str "20240101"),
    ("時間", Cell.str "abc")]

/-- A complete consultation row: float-artifact key, parseable reply
timestamp, non-empty tagged content. -/
def consultRow : Row :=
  [("序號", Cell.str "2000.0"),
    ("回覆時間", Cell.str "2024-03-05 14:20:33"),
    ("回覆內容", Cell.str "<p>please monitor</p>")]

/-! ## Helper lemmas -/

theorem cacheGet_cacheSet (c : List (Int × Nat)) (mrn : Int) (pid : Nat) :
    cacheGet (cacheSet c mrn pid) mrn = some pid := by
  simp [cacheGet, cacheSet, List.find?]

/-- `lookupOrCreate` caches the id it returns, returns a patient that is
in the resulting flushed view under that id, and either leaves the
patient table unchanged or appends exactly the placeholder patient (after
carrying over pending flushes). -/
theorem lookupOrCreate_spec (s : Session) (mrn : Int) :
    cacheGet (lookupOrCreate s mrn).2.cache mrn = some (lookupOrCreate s mrn).1.id ∧
    (∃ q ∈ (lookupOrCreate s mrn).2.flushed.patients, q.id = (lookupOrCreate s mrn).1.id) ∧
    ((lookupOrCreate s mrn).2.flushed.patients = s.flushed.patients ∨
      (lookupOrCreate s mrn).2.flushed.patients =
        s.flushed.patients ++ s.pending.patients ++ [mkDefaultPatient s.nextPid mrn]) := by
  unfold lookupOrCreate
  cases hf : List.find? (fun p => p.medical_record_no == toString mrn)
      s.flushed.patients with
  | none =>
      refine ⟨cacheGet_cacheSet .., ⟨mkDefaultPatient s.nextPid mrn, ?_, rfl⟩, ?_⟩
      · simp [flushAll, Tables.append]
      · right; simp [flushAll, Tables.append]
  | some p =>
      exact ⟨cacheGet_cacheSet .., ⟨p, List.mem_of_find?_eq_some hf, rfl⟩, Or.inl rfl⟩

/-- After any `get_or_create_patient` call, the cache maps the key to the
returned id, some flushed patient carries that id, and the patient table
either is unchanged or grew by exactly the placeholder patient. -/
theorem goc_spec (s : Session) (mrn : Int) :
    cacheGet (get_or_create_patient s mrn).2.cache mrn =
      some (get_or_create_patient s mrn).1.id ∧
    (∃ q ∈ (get_or_create_patient s mrn).2.flushed.patients,
        q.id = (get_or_create_patient s mrn).1.id) ∧
    ((get_or_create_patient s mrn).2.flushed.patients = s.flushed.patients ∨
      (get_or_create_patient s mrn).2.flushed.patients =
        s.flushed.patients ++ s.pending.patients ++
          [mkDefaultPatient s.nextPid mrn]) := by
  unfold get_or_create_patient
  split
  case h_2 hc => exact lookupOrCreate_spec s mrn
  case h_1 pid hc =>
    split
    case h_2 hf => exact lookupOrCreate_spec s mrn
    case h_1 p hf =>
      have hpid : p.id = pid := by simpa using List.find?_some hf
      exact ⟨by rw [hc, hpid], ⟨p, List.mem_of_find?_eq_some hf, rfl⟩, Or.inl rfl⟩

/-- A call made when the cache already resolves (`cacheGet` hits and the
id is carried by some flushed patient) performs no write at all and
returns a patient with the cached id. -/
theorem goc_resolved_call (s : Session) (mrn : Int) (pid : Nat)
    (hc : cacheGet s.cache mrn = some pid)
    (hm : ∃ q ∈ s.flushed.patients, q.id = pid) :
    ∃ q, get_or_create_patient s mrn = (q, s) ∧ q.id = pid := by
  obtain ⟨q0, hq0, hid⟩ := hm
  have hs : (List.find? (fun p => p.id == pid) s.flushed.patients).isSome :=
    List.find?_isSome.mpr ⟨q0, hq0, by simp [hid]⟩
  obtain ⟨q, hq⟩ := Option.isSome_iff_exists.mp hs
  have hqid : q.id = pid := by simpa using List.find?_some hq
  refine ⟨q, ?_, hqid⟩
  unfold get_or_create_patient
  simp only [hc, hq]

theorem cacheGet_cacheSet_ne (c : List (Int × Nat)) (mrn mrn' : Int)
    (pid : Nat) (hne : mrn' ≠ mrn) :
    cacheGet (cacheSet c mrn' pid) mrn = cacheGet c mrn := by
  unfold cacheGet cacheSet
  rw [List.find?_cons_of_neg]
  simp [hne]

theorem keyResolved_lookupOrCreate (mrn : Int) (pid : Nat) (s : Session)
    (h : keyResolved mrn pid s) (mrn' : Int) (hne : mrn' ≠ mrn) :
    keyResolved mrn pid (lookupOrCreate s mrn').2 := by
  obtain ⟨hc, q, hq, hid⟩ := h
  unfold lookupOrCreate
  split
  · exact ⟨by rw [cacheGet_cacheSet_ne _ _ _ _ hne]; exact hc, q, hq, hid⟩
  · refine ⟨by rw [cacheGet_cacheSet_ne _ _ _ _ hne]; exact hc, q, ?_, hid⟩
    simp only [flushAll, Tables.append]
    exact List.mem_append_left _ (List.mem_append_left _ hq)

theorem keyResolved_goc (mrn : Int) (pid : Nat) (s : Session)
    (h : keyResolved mrn pid s) (mrn' : Int) :
    keyResolved mrn pid (get_or_create_patient s mrn').2 := by
  by_cases hmm : mrn' = mrn
  · subst hmm
    obtain ⟨q, heq, _⟩ := goc_resolved_call s mrn' pid h.1 h.2
    rw [heq]
    exact h
  · unfold get_or_create_patient
    split
    · split
      · exact h
      · exact keyResolved_lookupOrCreate mrn pid s h mrn' hmm
    · exact keyResolved_lookupOrCreate mrn pid s h mrn' hmm

theorem keyResolved_commitNow (mrn : Int) (pid : Nat) (s : Session)
    (h : keyResolved mrn pid s) : keyResolved mrn pid (commitNow s) := by
  obtain ⟨hc, q, hq, hid⟩ := h
  exact ⟨hc, q, List.mem_append_left _ hq, hid⟩

theorem keyResolved_commitOp_ok (mrn : Int) (pid : Nat) (s s' : Session)
    (hok : commitOp s = Except.ok s') (h : keyResolved mrn pid s) :
    keyResolved mrn pid s' := by
  unfold commitOp at hok
  split at hok
  all_goals try split at hok
  all_goals simp only [Except.ok.injEq, reduceCtorEq] at hok
  · rw [← hok]
    exact keyResolved_commitNow mrn pid s h
  · rw [← hok]
    exact keyResolved_commitNow mrn pid _ h

theorem keyResolved_maybe_commit_ok (batch ins : Nat) (mrn : Int) (pid : Nat)
    (s s' : Session) (hok : maybe_commit batch s ins = Except.ok s')
    (h : keyResolved mrn pid s) :
    keyResolved mrn pid s' := by
  unfold maybe_commit at hok
  split at hok
  · simp only [Except.ok.injEq] at hok
    rw [← hok]
    exact h
  · split at hok <;> simp only [Except.ok.injEq, reduceCtorEq] at hok
    rename_i sOk hco
    rw [← hok]
    exact keyResolved_commitOp_ok mrn pid _ sOk hco h

theorem keyResolved_stageResult_ok (batch ins sk : Nat) (mrn : Int)
    (pid : Nat) (s2 s' : Session) (ins' sk' : Nat)
    (hok : stageResult batch s2 ins sk = Except.ok (s', ins', sk'))
    (h2 : keyResolved mrn pid s2) :
    keyResolved mrn pid s' := by
  unfold stageResult at hok
  split at hok <;>
    simp only [Except.ok.injEq, Prod.mk.injEq, reduceCtorEq] at hok
  rename_i sOk hmc
  rw [← hok.1]
  exact keyResolved_maybe_commit_ok batch ins mrn pid s2 sOk hmc h2

theorem keyResolved_summaryRowAction (batch ins sk : Nat) (mrn : Int)
    (pid : Nat) (s s' : Session) (ins' sk' : Nat) (r : Row)
    (h : keyResolved mrn pid s)
    (hok : summaryRowAction batch s ins sk r = Except.ok (s', ins', sk')) :
    keyResolved mrn pid s' := by
  unfold summaryRowAction at hok
  split at hok
  · simp only [Except.ok.injEq, Prod.mk.injEq] at hok
    rw [← hok.1]
    exact h
  · rename_i mrn' _
    rcases hg : get_or_create_patient s mrn' with ⟨p, s1⟩
    have h1 : keyResolved mrn pid s1 := by
      have := keyResolved_goc mrn pid s h mrn'
      rw [hg] at this
      exact this
    rw [hg] at hok
    dsimp only at hok
    split at hok
    · exact keyResolved_stageResult_ok _ _ _ _ _ _ _ _ _ hok h1
    · exact keyResolved_stageResult_ok _ _ _ _ _ _ _ _ _ hok h1

theorem keyResolved_consultRowAction (batch ins sk : Nat) (mrn : Int)
    (pid : Nat) (s s' : Session) (ins' sk' : Nat) (r : Row)
    (h : keyResolved mrn pid s)
    (hok : consultRowAction batch s ins sk r = Except.ok (s', ins', sk')) :
    keyResolved mrn pid s' := by
  unfold consultRowAction at hok
  split at hok
  · simp only [Except.ok.injEq, Prod.mk.injEq] at hok
    rw [← hok.1]
    exact h
  · rename_i mrn' _
    rcases hg : get_or_create_patient s mrn' with ⟨p, s1⟩
    have h1 : keyResolved mrn pid s1 := by
      have := keyResolved_goc mrn pid s h mrn'
      rw [hg] at this
      exact this
    rw [hg] at hok
    dsimp only at hok
    split at hok
    · simp only [Except.ok.injEq, Prod.mk.injEq] at hok
      rw [← hok.1]
      exact h1
    · split at hok
      · simp only [Except.ok.injEq, Prod.mk.injEq] at hok
        rw [← hok.1]
        exact h1
      · exact keyResolved_stageResult_ok _ _ _ _ _ _ _ _ _ hok h1

theorem keyResolved_labRowAction (batch ins sk : Nat) (mrn : Int)
    (pid : Nat) (s s' : Session) (ins' sk' : Nat) (r : Row)
    (h : keyResolved mrn pid s)
    (hok : labRowAction batch s ins sk r = Except.ok (s', ins', sk')) :
    keyResolved mrn pid s' := by
  unfold labRowAction at hok
  split at hok
  · simp only [Except.ok.injEq, Prod.mk.injEq] at hok
    rw [← hok.1]
    exact h
  · rename_i mrn' _
    rcases hg : get_or_create_patient s mrn' with ⟨p, s1⟩
    have h1 : keyResolved mrn pid s1 := by
      have := keyResolved_goc mrn pid s h mrn'
      rw [hg] at this
      exact this
    rw [hg] at hok
    dsimp only at hok
    split at hok
    · simp only [Except.ok.injEq, Prod.mk.injEq] at hok
      rw [← hok.1]
      exact h1
    · split at hok
      · simp only [Except.ok.injEq, Prod.mk.injEq] at hok
        rw [← hok.1]
        exact h1
      · exact keyResolved_stageResult_ok _ _ _ _ _ _ _ _ _ hok h1

theorem keyResolved_nursingRowAction (batch ins sk : Nat) (mrn : Int)
    (pid : Nat) (s s' : Session) (ins' sk' : Nat) (r : Row)
    (h : keyResolved mrn pid s)
    (hok : nursingRowAction batch s ins sk r = Except.ok (s', ins', sk')) :
    keyResolved mrn pid s' := by
  unfold nursingRowAction at hok
  split at hok
  · simp only [Except.ok.injEq, Prod.mk.injEq] at hok
    rw [← hok.1]
    exact h
  · rename_i mrn' _
    rcases hg : get_or_create_patient s mrn' with ⟨p, s1⟩
    have h1 : keyResolved mrn pid s1 := by
      have := keyResolved_goc mrn pid s h mrn'
      rw [hg] at this
      exact this
    rw [hg] at hok
    dsimp only at hok
    split at hok
    · simp only [Except.ok.injEq, Prod.mk.injEq] at hok
      rw [← hok.1]
      exact h1
    · exact keyResolved_stageResult_ok _ _ _ _ _ _ _ _ _ hok h1

theorem keyResolved_import_summaries (batch : Nat) (mrn : Int) (pid : Nat) :
    ∀ (rows : List Row) (s : Session) (ins sk : Nat), keyResolved mrn pid s →
      ∀ s' ins' sk', import_summaries batch s ins sk rows = Except.ok (s', ins', sk') →
        keyResolved mrn pid s' := by
  intro rows
  induction rows with
  | nil =>
      intro s ins sk h s' ins' sk' heq
      unfold import_summaries at heq
      simp only [Except.ok.injEq, Prod.mk.injEq] at heq
      rw [← heq.1]
      exact h
  | cons r rest ih =>
      intro s ins sk h s' ins' sk' heq
      unfold import_summaries at heq
      split at heq
      · simp only [reduceCtorEq] at heq
      · rename_i s2 ins2 sk2 hact
        exact ih s2 ins2 sk2
          (keyResolved_summaryRowAction _ _ _ _ _ _ _ _ _ _ h hact)
          s' ins' sk' heq

theorem keyResolved_import_consults (batch : Nat) (mrn : Int) (pid : Nat) :
    ∀ (rows : List Row) (s : Session) (ins sk : Nat), keyResolved mrn pid s →
      ∀ s' ins' sk', import_consults batch s ins sk rows = Except.ok (s', ins', sk') →
        keyResolved mrn pid s' := by
  intro rows
  induction rows with
  | nil =>
      intro s ins sk h s' ins' sk' heq
      unfold import_consults at heq
      simp only [Except.ok.injEq, Prod.mk.injEq] at heq
      rw [← heq.1]
      exact h
  | cons r rest ih =>
      intro s ins sk h s' ins' sk' heq
      unfold import_consults at heq
      split at heq
      · simp only [reduceCtorEq] at heq
      · rename_i s2 ins2 sk2 hact
        exact ih s2 ins2 sk2
          (keyResolved_consultRowAction _ _ _ _ _ _ _ _ _ _ h hact)
          s' ins' sk' heq

theorem keyResolved_import_labs (batch : Nat) (mrn : Int) (pid : Nat) :
    ∀ (rows : List Row) (s : Session) (ins sk : Nat), keyResolved mrn pid s →
      ∀ s' ins' sk', import_labs batch s ins sk rows = Except.ok (s', ins', sk') →
        keyResolved mrn pid s' := by
  intro rows
  induction rows with
  | nil =>
      intro s ins sk h s' ins' sk' heq
      unfold import_labs at heq
      simp only [Except.ok.injEq, Prod.mk.injEq] at heq
      rw [← heq.1]
      exact h
  | cons r rest ih =>
      intro s ins sk h s' ins' sk' heq
      unfold import_labs at heq
      split at heq
      · simp only [reduceCtorEq] at heq
      · rename_i s2 ins2 sk2 hact
        exact ih s2 ins2 sk2
          (keyResolved_labRowAction _ _ _ _ _ _ _ _ _ _ h hact)
          s' ins' sk' heq

theorem keyResolved_import_nursing (batch : Nat) (mrn : Int) (pid : Nat) :
    ∀ (rows : List Row) (s : Session) (ins sk : Nat), keyResolved mrn pid s →
      ∀ s' ins' sk', import_nursing batch s ins sk rows = Except.ok (s', ins', sk') →
        keyResolved mrn pid s' := by
  intro rows
  induction rows with
  | nil =>
      intro s ins sk h s' ins' sk' heq
      unfold import_nursing at heq
      simp only [Except.ok.injEq, Prod.mk.injEq] at heq
      rw [← heq.1]
      exact h
  | cons r rest ih =>
      intro s ins sk h s' ins' sk' heq
      unfold import_nursing at heq
      split at heq
      · simp only [reduceCtorEq] at heq
      · rename_i s2 ins2 sk2 hact
        exact ih s2 ins2 sk2
          (keyResolved_nursingRowAction _ _ _ _ _ _ _ _ _ _ h hact)
          s' ins' sk' heq

theorem lookupOrCreate_trace (s : Session) (mrn : Int) :
    (lookupOrCreate s mrn).2.calls = s.calls ∧
    (lookupOrCreate s mrn).2.trig = s.trig ∧
    (lookupOrCreate s mrn).2.oracle = s.oracle := by
  unfold lookupOrCreate
  split <;> simp [flushAll]

theorem goc_trace (s : Session) (mrn : Int) :
    (get_or_create_patient s mrn).2.calls = s.calls ∧
    (get_or_create_patient s mrn).2.trig = s.trig ∧
    (get_or_create_patient s mrn).2.oracle = s.oracle := by
  unfold get_or_create_patient
  split
  · split
    · simp
    · exact lookupOrCreate_trace s mrn
  · exact lookupOrCreate_trace s mrn

theorem commitNow_trace (s : Session) :
    (commitNow s).calls = s.calls ∧ (commitNow s).trig = s.trig := by
  simp [commitNow]

theorem commitOp_trace (s : Session) :
    ∀ s', (commitOp s = Except.ok s' ∨ commitOp s = Except.error s') →
      s'.calls = s.calls ∧ s'.trig = s.trig := by
  intro s' h
  unfold commitOp at h
  rcases h with h | h <;> split at h
  all_goals try split at h
  all_goals simp only [Except.ok.injEq, Except.error.injEq, reduceCtorEq] at h
  all_goals rw [← h]
  all_goals simp [commitNow]

theorem rollbackOp_trace (s : Session) :
    (rollbackOp s).calls = s.calls ∧ (rollbackOp s).trig = s.trig := by
  simp [rollbackOp]

theorem maybe_commit_traceOK (batch ins : Nat) (s : Session) (h : traceOK batch s) :
    ∀ s', (maybe_commit batch s ins = Except.ok s' ∨
        maybe_commit batch s ins = Except.error s') → traceOK batch s' := by
  have hs2 : ∀ s2 : Session, s2.calls = s.calls ++ [ins] → s2.trig = s.trig ++ [ins] →
      ins % batch = 0 → traceOK batch s2 := by
    intro s2 hca htr hm
    show s2.trig = s2.calls.filter (fun c => c % batch == 0)
    rw [hca, htr, List.filter_append, h]
    simp [hm]
  intro s' hs'
  unfold maybe_commit at hs'
  by_cases hm : ins % batch = 0
  · rw [if_neg (by simpa using hm)] at hs'
    rcases hs' with hs' | hs' <;> split at hs' <;>
      simp only [Except.ok.injEq, Except.error.injEq, reduceCtorEq] at hs'
    · rename_i sMid hco
      have htr := commitOp_trace _ _ (Or.inl hco)
      subst hs'
      exact hs2 sMid (by simpa using htr.1) (by simpa using htr.2) hm
    · rename_i sMid hco
      have htr := commitOp_trace _ _ (Or.inr hco)
      subst hs'
      exact hs2 (rollbackOp sMid)
        (by rw [(rollbackOp_trace _).1]; simpa using htr.1)
        (by rw [(rollbackOp_trace _).2]; simpa using htr.2) hm
  · rw [if_pos (by simpa using hm)] at hs'
    rcases hs' with hs' | hs' <;>
      simp only [Except.ok.injEq, Except.error.injEq, reduceCtorEq] at hs'
    subst hs'
    show s.trig = (s.calls ++ [ins]).filter (fun c => c % batch == 0)
    rw [List.filter_append, h]
    simp [hm]

/-- Flushing and a successful commit reorder nothing: the concatenation of
visible and pending rows of each table is preserved. -/
theorem commitNow_all (s : Session) :
    allNotes (commitNow s) = allNotes s ∧
    allConsults (commitNow s) = allConsults s ∧
    allNursing (commitNow s) = allNursing s := by
  simp [commitNow, allNotes, allConsults, allNursing, Tables.append, Tables.empty]

theorem commitOp_ok_all (s s' : Session) (h : commitOp s = Except.ok s') :
    allNotes s' = allNotes s ∧ allConsults s' = allConsults s ∧
    allNursing s' = allNursing s := by
  unfold commitOp at h
  split at h
  all_goals try split at h
  all_goals simp only [Except.ok.injEq, reduceCtorEq] at h
  · rw [← h]; exact commitNow_all s
  · rw [← h]
    exact commitNow_all _

theorem maybe_commit_ok_all (batch ins : Nat) (s s' : Session)
    (h : maybe_commit batch s ins = Except.ok s') :
    allNotes s' = allNotes s ∧ allConsults s' = allConsults s ∧
    allNursing s' = allNursing s := by
  unfold maybe_commit at h
  split at h
  · simp only [Except.ok.injEq] at h
    rw [← h]
    simp [allNotes, allConsults, allNursing]
  · split at h <;> simp only [Except.ok.injEq, reduceCtorEq] at h
    rename_i sMid hco
    rw [← h]
    have hall := commitOp_ok_all _ _ hco
    exact hall

theorem maybe_commit_ok_of_no_failure (batch ins : Nat) (s : Session)
    (h : s.oracle = []) :
    ∃ s', maybe_commit batch s ins = Except.ok s' := by
  unfold maybe_commit
  split
  · exact ⟨_, rfl⟩
  · unfold commitOp
    dsimp only
    rw [h]
    exact ⟨_, rfl⟩


theorem stageResult_traceOK (batch ins sk : Nat) (s2 : Session)
    (h2 : traceOK batch s2) :
    (∀ s' ins' sk', stageResult batch s2 ins sk = Except.ok (s', ins', sk') →
      traceOK batch s') ∧
    (∀ e, stageResult batch s2 ins sk = Except.error e → traceOK batch e) := by
  constructor
  · intro s' ins' sk' heq
    unfold stageResult at heq
    split at heq <;>
      simp only [Except.ok.injEq, Prod.mk.injEq, reduceCtorEq] at heq
    rename_i sOk hok
    rw [← heq.1]
    exact maybe_commit_traceOK batch ins s2 h2 sOk (Or.inl hok)
  · intro e heq
    unfold stageResult at heq
    split at heq <;>
      simp only [Except.error.injEq, reduceCtorEq] at heq
    rename_i eMid herr
    rw [← heq]
    exact maybe_commit_traceOK batch ins s2 h2 eMid (Or.inr herr)

theorem goc_traceOK (batch : Nat) (s : Session) (mrn : Int)
    (h : traceOK batch s) : traceOK batch (get_or_create_patient s mrn).2 := by
  have ht := goc_trace s mrn
  show (get_or_create_patient s mrn).2.trig = _
  rw [ht.1, ht.2.1]
  exact h

theorem summaryRowAction_traceOK (batch ins sk : Nat) (s : Session) (r : Row)
    (h : traceOK batch s) :
    (∀ s' ins' sk', summaryRowAction batch s ins sk r = Except.ok (s', ins', sk') →
      traceOK batch s') ∧
    (∀ e, summaryRowAction batch s ins sk r = Except.error e → traceOK batch e) := by
  unfold summaryRowAction
  cases hmrn : get_mrn_from_row r with
  | none =>
      refine ⟨?_, ?_⟩
      · intro s' ins' sk' heq
        simp only [Except.ok.injEq, Prod.mk.injEq] at heq
        rw [← heq.1]; exact h
      · intro e heq
        simp only [reduceCtorEq] at heq
  | some mrn =>
      rcases hg : get_or_create_patient s mrn with ⟨p, s1⟩
      have h1 : traceOK batch s1 := by
        have := goc_traceOK batch s mrn h
        rw [hg] at this
        exact this
      simp only [hg]
      split
      · exact stageResult_traceOK batch (ins + 1) sk _ h1
      · exact stageResult_traceOK batch (ins + 1) sk _ h1

theorem consultRowAction_traceOK (batch ins sk : Nat) (s : Session) (r : Row)
    (h : traceOK batch s) :
    (∀ s' ins' sk', consultRowAction batch s ins sk r = Except.ok (s', ins', sk') →
      traceOK batch s') ∧
    (∀ e, consultRowAction batch s ins sk r = Except.error e → traceOK batch e) := by
  unfold consultRowAction
  cases hmrn : get_mrn_from_row r with
  | none =>
      refine ⟨?_, ?_⟩
      · intro s' ins' sk' heq
        simp only [Except.ok.injEq, Prod.mk.injEq] at heq
        rw [← heq.1]; exact h
      · intro e heq
        simp only [reduceCtorEq] at heq
  | some mrn =>
      rcases hg : get_or_create_patient s mrn with ⟨p, s1⟩
      have h1 : traceOK batch s1 := by
        have := goc_traceOK batch s mrn h
        rw [hg] at this
        exact this
      simp only [hg]
      split
      · refine ⟨?_, ?_⟩
        · intro s' ins' sk' heq
          simp only [Except.ok.injEq, Prod.mk.injEq] at heq
          rw [← heq.1]; exact h1
        · intro e heq
          simp only [reduceCtorEq] at heq
      · split
        · refine ⟨?_, ?_⟩
          · intro s' ins' sk' heq
            simp only [Except.ok.injEq, Prod.mk.injEq] at heq
            rw [← heq.1]; exact h1
          · intro e heq
            simp only [reduceCtorEq] at heq
        · exact stageResult_traceOK batch (ins + 1) sk _ h1

theorem labRowAction_traceOK (batch ins sk : Nat) (s : Session) (r : Row)
    (h : traceOK batch s) :
    (∀ s' ins' sk', labRowAction batch s ins sk r = Except.ok (s', ins', sk') →
      traceOK batch s') ∧
    (∀ e, labRowAction batch s ins sk r = Except.error e → traceOK batch e) := by
  unfold labRowAction
  cases hmrn : get_mrn_from_row r with
  | none =>
      refine ⟨?_, ?_⟩
      · intro s' ins' sk' heq
        simp only [Except.ok.injEq, Prod.mk.injEq] at heq
        rw [← heq.1]; exact h
      · intro e heq
        simp only [reduceCtorEq] at heq
  | some mrn =>
      rcases hg : get_or_create_patient s mrn with ⟨p, s1⟩
      have h1 : traceOK batch s1 := by
        have := goc_traceOK batch s mrn h
        rw [hg] at this
        exact this
      simp only [hg]
      split
      · refine ⟨?_, ?_⟩
        · intro s' ins' sk' heq
          simp only [Except.ok.injEq, Prod.mk.injEq] at heq
          rw [← heq.1]; exact h1
        · intro e heq
          simp only [reduceCtorEq] at heq
      · split
        · refine ⟨?_, ?_⟩
          · intro s' ins' sk' heq
            simp only [Except.ok.injEq, Prod.mk.injEq] at heq
            rw [← heq.1]; exact h1
          · intro e heq
            simp only [reduceCtorEq] at heq
        · exact stageResult_traceOK batch (ins + 1) sk _ h1

theorem nursingRowAction_traceOK (batch ins sk : Nat) (s : Session) (r : Row)
    (h : traceOK batch s) :
    (∀ s' ins' sk', nursingRowAction batch s ins sk r = Except.ok (s', ins', sk') →
      traceOK batch s') ∧
    (∀ e, nursingRowAction batch s ins sk r = Except.error e → traceOK batch e) := by
  unfold nursingRowAction
  cases hmrn : get_mrn_from_row r with
  | none =>
      refine ⟨?_, ?_⟩
      · intro s' ins' sk' heq
        simp only [Except.ok.injEq, Prod.mk.injEq] at heq
        rw [← heq.1]; exact h
      · intro e heq
        simp only [reduceCtorEq] at heq
  | some mrn =>
      rcases hg : get_or_create_patient s mrn with ⟨p, s1⟩
      have h1 : traceOK batch s1 := by
        have := goc_traceOK batch s mrn h
        rw [hg] at this
        exact this
      simp only [hg]
      split
      · refine ⟨?_, ?_⟩
        · intro s' ins' sk' heq
          simp only [Except.ok.injEq, Prod.mk.injEq] at heq
          rw [← heq.1]; exact h1
        · intro e heq
          simp only [reduceCtorEq] at heq
      · exact stageResult_traceOK batch _ sk _ h1

theorem import_summaries_traceOK (batch : Nat) :
    ∀ (rows : List Row) (s : Session) (ins sk : Nat), traceOK batch s →
      (∀ s' ins' sk', import_summaries batch s ins sk rows = Except.ok (s', ins', sk') →
        traceOK batch s') ∧
      (∀ e, import_summaries batch s ins sk rows = Except.error e → traceOK batch e) := by
  intro rows
  induction rows with
  | nil =>
      intro s ins sk h
      refine ⟨?_, ?_⟩
      · intro s' ins' sk' heq
        unfold import_summaries at heq
        simp only [Except.ok.injEq, Prod.mk.injEq] at heq
        rw [← heq.1]; exact h
      · intro e heq
        unfold import_summaries at heq
        simp only [reduceCtorEq] at heq
  | cons r rest ih =>
      intro s ins sk h
      have hstep := summaryRowAction_traceOK batch ins sk s r h
      refine ⟨?_, ?_⟩
      · intro s' ins' sk' heq
        unfold import_summaries at heq
        split at heq
        · simp only [reduceCtorEq] at heq
        · rename_i s2 ins2 sk2 hact
          exact (ih s2 ins2 sk2 (hstep.1 s2 ins2 sk2 hact)).1 s' ins' sk' heq
      · intro e heq
        unfold import_summaries at heq
        split at heq
        · rename_i e0 hact
          simp only [Except.error.injEq] at heq
          rw [← heq]
          exact hstep.2 e0 hact
        · rename_i s2 ins2 sk2 hact
          exact (ih s2 ins2 sk2 (hstep.1 s2 ins2 sk2 hact)).2 e heq

theorem import_consults_traceOK (batch : Nat) :
    ∀ (rows : List Row) (s : Session) (ins sk : Nat), traceOK batch s →
      (∀ s' ins' sk', import_consults batch s ins sk rows = Except.ok (s', ins', sk') →
        traceOK batch s') ∧
      (∀ e, import_consults batch s ins sk rows = Except.error e → traceOK batch e) := by
  intro rows
  induction rows with
  | nil =>
      intro s ins sk h
      refine ⟨?_, ?_⟩
      · intro s' ins' sk' heq
        unfold import_consults at heq
        simp only [Except.ok.injEq, Prod.mk.injEq] at heq
        rw [← heq.1]; exact h
      · intro e heq
        unfold import_consults at heq
        simp only [reduceCtorEq] at heq
  | cons r rest ih =>
      intro s ins sk h
      have hstep := consultRowAction_traceOK batch ins sk s r h
      refine ⟨?_, ?_⟩
      · intro s' ins' sk' heq
        unfold import_consults at heq
        split at heq
        · simp only [reduceCtorEq] at heq
        · rename_i s2 ins0 sk2 hact
          exact (ih s2 ins0 sk2 (hstep.1 s2 ins0 sk2 hact)).1 s' ins' sk' heq
      · intro e heq
        unfold import_consults at heq
        split at heq
        · rename_i e0 hact
          simp only [Except.error.injEq] at heq
          rw [← heq]
          exact hstep.2 e0 hact
        · rename_i s2 ins0 sk2 hact
          exact (ih s2 ins0 sk2 (hstep.1 s2 ins0 sk2 hact)).2 e heq

theorem import_labs_traceOK (batch : Nat) :
    ∀ (rows : List Row) (s : Session) (ins sk : Nat), traceOK batch s →
      (∀ s' ins' sk', import_labs batch s ins sk rows = Except.ok (s', ins', sk') →
        traceOK batch s') ∧
      (∀ e, import_labs batch s ins sk rows = Except.error e → traceOK batch e) := by
  intro rows
  induction rows with
  | nil =>
      intro s ins sk h
      refine ⟨?_, ?_⟩
      · intro s' ins' sk' heq
        unfold import_labs at heq
        simp only [Except.ok.injEq, Prod.mk.injEq] at heq
        rw [← heq.1]; exact h
      · intro e heq
        unfold import_labs at heq
        simp only [reduceCtorEq] at heq
  | cons r rest ih =>
      intro s ins sk h
      have hstep := labRowAction_traceOK batch ins sk s r h
      refine ⟨?_, ?_⟩
      · intro s' ins' sk' heq
        unfold import_labs at heq
        split at heq
        · simp only [reduceCtorEq] at heq
        · rename_i s2 ins0 sk2 hact
          exact (ih s2 ins0 sk2 (hstep.1 s2 ins0 sk2 hact)).1 s' ins' sk' heq
      · intro e heq
        unfold import_labs at heq
        split at heq
        · rename_i e0 hact
          simp only [Except.error.injEq] at heq
          rw [← heq]
          exact hstep.2 e0 hact
        · rename_i s2 ins0 sk2 hact
          exact (ih s2 ins0 sk2 (hstep.1 s2 ins0 sk2 hact)).2 e heq

theorem import_nursing_traceOK (batch : Nat) :
    ∀ (rows : List Row) (s : Session) (ins sk : Nat), traceOK batch s →
      (∀ s' ins' sk', import_nursing batch s ins sk rows = Except.ok (s', ins', sk') →
        traceOK batch s') ∧
      (∀ e, import_nursing batch s ins sk rows = Except.error e → traceOK batch e) := by
  intro rows
  induction rows with
  | nil =>
      intro s ins sk h
      refine ⟨?_, ?_⟩
      · intro s' ins' sk' heq
        unfold import_nursing at heq
        simp only [Except.ok.injEq, Prod.mk.injEq] at heq
        rw [← heq.1]; exact h
      · intro e heq
        unfold import_nursing at heq
        simp only [reduceCtorEq] at heq
  | cons r rest ih =>
      intro s ins sk h
      have hstep := nursingRowAction_traceOK batch ins sk s r h
      refine ⟨?_, ?_⟩
      · intro s' ins' sk' heq
        unfold import_nursing at heq
        split at heq
        · simp only [reduceCtorEq] at heq
        · rename_i s2 ins0 sk2 hact
          exact (ih s2 ins0 sk2 (hstep.1 s2 ins0 sk2 hact)).1 s' ins' sk' heq
      · intro e heq
        unfold import_nursing at heq
        split at heq
        · rename_i e0 hact
          simp only [Except.error.injEq] at heq
          rw [← heq]
          exact hstep.2 e0 hact
        · rename_i s2 ins0 sk2 hact
          exact (ih s2 ins0 sk2 (hstep.1 s2 ins0 sk2 hact)).2 e heq

/-! ## Claim theorems -/

/-- C2: within a run, `get_or_create_patient` is idempotent per key — a
second call with the same key returns the same patient id and performs no
further write (the session is returned unchanged) — and the first call
either performs no creation or appends exactly one Patient whose fields
are the placeholder defaults: medical_record_no and name the string form
of the key, category "NHI General", gender "M", weight 0, department
"N/A", birthday 2000-01-01, created_by the configured import-user id. -/
theorem goc_same_key_idempotent_with_defaults (s : Session) (mrn : Int) :
    ((get_or_create_patient (get_or_create_patient s mrn).2 mrn).1.id =
        (get_or_create_patient s mrn).1.id ∧
      (get_or_create_patient (get_or_create_patient s mrn).2 mrn).2 =
        (get_or_create_patient s mrn).2) ∧
    ((get_or_create_patient s mrn).2.flushed.patients = s.flushed.patients ∨
      (get_or_create_patient s mrn).2.flushed.patients =
        s.flushed.patients ++ s.pending.patients ++
          [⟨s.nextPid, toString mrn, toString mrn, "NHI General", "M", 0,
            "N/A", ⟨2000, 1, 1⟩, IMPORT_USER_ID⟩]) ∧
    keyResolved mrn (get_or_create_patient s mrn).1.id
      (get_or_create_patient s mrn).2 ∧
    (∀ (pid : Nat) (s0 : Session), keyResolved mrn pid s0 →
      ∃ q, get_or_create_patient s0 mrn = (q, s0) ∧ q.id = pid) ∧
    (∀ (batch : Nat) (rows : List Row) (s0 : Session) (ins sk pid : Nat)
        (s' : Session) (ins' sk' : Nat), keyResolved mrn pid s0 →
      (import_summaries batch s0 ins sk rows = Except.ok (s', ins', sk') →
        keyResolved mrn pid s') ∧
      (import_consults batch s0 ins sk rows = Except.ok (s', ins', sk') →
        keyResolved mrn pid s') ∧
      (import_labs batch s0 ins sk rows = Except.ok (s', ins', sk') →
        keyResolved mrn pid s') ∧
      (import_nursing batch s0 ins sk rows = Except.ok (s', ins', sk') →
        keyResolved mrn pid s')) := by
  obtain ⟨hc, hm, hgrow⟩ := goc_spec s mrn
  obtain ⟨q, hq, hqid⟩ :=
    goc_resolved_call (get_or_create_patient s mrn).2 mrn
      (get_or_create_patient s mrn).1.id hc hm
  refine ⟨⟨?_, ?_⟩, ?_, ⟨hc, hm⟩, ?_, ?_⟩
  · rw [hq]; exact hqid
  · rw [hq]
  · simpa [mkDefaultPatient] using hgrow
  · intro pid s0 h0
    exact goc_resolved_call s0 mrn pid h0.1 h0.2
  · intro batch rows s0 ins sk pid s' ins' sk' h0
    exact ⟨fun heq => keyResolved_import_summaries batch mrn pid rows s0 ins sk h0 s' ins' sk' heq,
      fun heq => keyResolved_import_consults batch mrn pid rows s0 ins sk h0 s' ins' sk' heq,
      fun heq => keyResolved_import_labs batch mrn pid rows s0 ins sk h0 s' ins' sk' heq,
      fun heq => keyResolved_import_nursing batch mrn pid rows s0 ins sk h0 s' ins' sk' heq⟩

/-- Witness for C2: over an empty store the first call for key 2000
creates patient id 1; in the resulting state the key is resolved, and a
further call returns the same id performing no write. -/
theorem goc_same_key_idempotent_with_defaults_witness :
    ∃ q, get_or_create_patient (get_or_create_patient Session.init 2000).2 2000 =
        (q, (get_or_create_patient Session.init 2000).2) ∧ q.id = 1 :=
  (goc_same_key_idempotent_with_defaults Session.init 2000).2.2.2.1 1
    (get_or_create_patient Session.init 2000).2 (by decide)

/-- C10: when the cached id for a key no longer resolves to a flushed
patient, `get_or_create_patient` recovers locally: it falls through to the
store query by the business key (string form of the key); a hit is
returned with no creation (only the cache is refreshed), and only a miss
creates the placeholder patient. -/
theorem stale_cache_falls_back_to_store (s : Session) (mrn : Int) (pid : Nat)
    (hc : cacheGet s.cache mrn = some pid)
    (hstale : List.find? (fun p => p.id == pid) s.flushed.patients = Option.none) :
    get_or_create_patient s mrn = lookupOrCreate s mrn ∧
    (∀ p, List.find? (fun p => p.medical_record_no == toString mrn)
        s.flushed.patients = some p →
      get_or_create_patient s mrn = (p, { s with cache := cacheSet s.cache mrn p.id })) ∧
    (List.find? (fun p => p.medical_record_no == toString mrn)
        s.flushed.patients = Option.none →
      (get_or_create_patient s mrn).1 = mkDefaultPatient s.nextPid mrn ∧
      (get_or_create_patient s mrn).2.flushed.patients =
        s.flushed.patients ++ s.pending.patients ++ [mkDefaultPatient s.nextPid mrn]) := by
  have hfall : get_or_create_patient s mrn = lookupOrCreate s mrn := by
    unfold get_or_create_patient
    simp only [hc, hstale]
  refine ⟨hfall, ?_, ?_⟩
  · intro p hp
    rw [hfall]
    unfold lookupOrCreate
    rw [hp]
  · intro hmiss
    rw [hfall]
    unfold lookupOrCreate
    rw [hmiss]
    exact ⟨rfl, by simp [flushAll, Tables.append]⟩

/-- C1 counterexample: in a nursing pass over a single row that stages no
records, `maybe_commit` is called with running count 0 and a commit IS
triggered (and durably persists the freshly created patient), although 0
is not a positive multiple of the batch size — refuting "never at 0". -/
theorem commit_triggered_at_count_zero :
    (runState (import_nursing COMMIT_BATCH Session.init 0 0 [nursingZeroRow])).calls
        = [0] ∧
    (runState (import_nursing COMMIT_BATCH Session.init 0 0 [nursingZeroRow])).trig
        = [0] ∧
    (runState (import_nursing COMMIT_BATCH Session.init 0 0
        [nursingZeroRow])).committed.patients.length = 1 ∧
    ¬ 0 < 0 := by
  refine ⟨?_, ?_, ?_, by decide⟩ <;> decide

/-- C1 amended: during any importer pass (summaries, consults, labs,
nursing), a commit is triggered exactly at the counts passed to
`maybe_commit` that are divisible by the batch size — divisibility
includes 0 and repeated counts, since a nursing row that stages no
records passes an unchanged (possibly zero) running count, and a nursing
row staging several records can step the count past a multiple without
triggering.  Formally: the trigger trace always equals the
divisible-by-batch sublist of the call trace, whether the pass succeeds
or aborts on a commit failure. -/
theorem commit_triggered_iff_count_divisible (batch ins sk : Nat)
    (rows : List Row) (s : Session) (h : traceOK batch s) :
    ((∀ s' ins' sk', import_summaries batch s ins sk rows = Except.ok (s', ins', sk') →
        traceOK batch s') ∧
      (∀ e, import_summaries batch s ins sk rows = Except.error e → traceOK batch e)) ∧
    ((∀ s' ins' sk', import_consults batch s ins sk rows = Except.ok (s', ins', sk') →
        traceOK batch s') ∧
      (∀ e, import_consults batch s ins sk rows = Except.error e → traceOK batch e)) ∧
    ((∀ s' ins' sk', import_labs batch s ins sk rows = Except.ok (s', ins', sk') →
        traceOK batch s') ∧
      (∀ e, import_labs batch s ins sk rows = Except.error e → traceOK batch e)) ∧
    ((∀ s' ins' sk', import_nursing batch s ins sk rows = Except.ok (s', ins', sk') →
        traceOK batch s') ∧
      (∀ e, import_nursing batch s ins sk rows = Except.error e → traceOK batch e)) :=
  ⟨import_summaries_traceOK batch rows s ins sk h,
    import_consults_traceOK batch rows s ins sk h,
    import_labs_traceOK batch rows s ins sk h,
    import_nursing_traceOK batch rows s ins sk h⟩

/-- Witness for the amended C1 at a concrete input: a nursing pass with
batch size 2 over the zero-record row, started from a fresh session
(whose traces trivially satisfy the invariant). -/
theorem commit_triggered_iff_count_divisible_witness :
    traceOK 2 (runState (import_nursing 2 Session.init 0 0 [nursingZeroRow])) := by
  have h := (commit_triggered_iff_count_divisible 2 0 0 [nursingZeroRow]
    Session.init rfl).2.2.2
  cases hres : import_nursing 2 Session.init 0 0 [nursingZeroRow] with
  | ok x =>
      have := h.1 x.1 x.2.1 x.2.2 (by rw [hres])
      simpa [runState, hres] using this
  | error e =>
      have := h.2 e hres
      simpa [runState, hres] using this

/-- C3: `main` never returns normally.  Whatever the rows and commit
outcomes, the cleanup block runs `db.close()` and then evaluates a log
f-string referencing `LOG_PATH`, a name never bound at module level, so a
`NameError` escapes on every execution path (replacing any in-flight
exception); the session close does execute before the failure. -/
theorem main_never_returns_normally (batch : Nat) (s : Session)
    (rS rC rL rN : List Row) :
    (main batch s rS rC rL rN).err = some (PyErr.nameError "LOG_PATH") ∧
    (main batch s rS rC rL rN).dbClosed = true := by
  have hng : moduleGlobals.contains "LOG_PATH" = false := by decide
  unfold main
  rw [hng]
  simp

/-- C8: a failing commit inside `maybe_commit` rolls the transaction back
(visible state reverts to the durable state, pending writes are dropped,
nothing new is durably persisted) and the exception propagates: a row
action error aborts the whole importer pass, and an aborted summaries
pass makes `main` abort without running the later importers. -/
theorem commit_failure_rolls_back_and_propagates :
    (∀ batch ins (s : Session) rest, ins % batch = 0 → s.oracle = false :: rest →
      ∃ s', maybe_commit batch s ins = Except.error s' ∧
        s'.committed = s.committed ∧ s'.flushed = s.committed ∧
        s'.pending = Tables.empty) ∧
    (∀ batch ins sk (s : Session) r rows e,
      summaryRowAction batch s ins sk r = Except.error e →
      import_summaries batch s ins sk (r :: rows) = Except.error e) ∧
    (∀ batch (s : Session) rS rC rL rN e,
      import_summaries batch s 0 0 rS = Except.error e →
      mainBody batch s rS rC rL rN = Except.error e ∧
      (main batch s rS rC rL rN).final = rollbackOp e) := by
  refine ⟨?_, ?_, ?_⟩
  · intro batch ins s rest hm ho
    unfold maybe_commit
    rw [if_neg (by simpa using hm)]
    unfold commitOp
    dsimp only
    rw [ho]
    exact ⟨_, rfl, rfl, rfl, rfl⟩
  · intro batch ins sk s r rows e hact
    unfold import_summaries
    rw [hact]
  · intro batch s rS rC rL rN e h
    have hb : mainBody batch s rS rC rL rN = Except.error e := by
      unfold mainBody
      rw [h]
    have hng : moduleGlobals.contains "LOG_PATH" = false := by decide
    refine ⟨hb, ?_⟩
    unfold main
    rw [hb, hng]
    simp

/-- Witness for C8: batch size 1, a scripted store failure, one summary
row — the commit attempt at count 1 fails, rolls back, and propagates. -/
theorem commit_failure_rolls_back_and_propagates_witness :
    ∃ s', maybe_commit 1 { Session.init with oracle := [false] } 1 =
        Except.error s' ∧
      s'.committed = ({ Session.init with oracle := [false] } : Session).committed ∧
      s'.flushed = ({ Session.init with oracle := [false] } : Session).committed ∧
      s'.pending = Tables.empty :=
  commit_failure_rolls_back_and_propagates.1 1 1
    { Session.init with oracle := [false] } [] (by decide) rfl

/-- C4 (code bug, evaluated at the failing input): processing the same
summary row twice in one pass stages TWO DischargeNotes for the single
created patient — the second row's `first()` lookup cannot see the first
row's still-pending note because the session never autoflushes — and both
rows still count as inserted.  The claim's full-replace upsert holds only
across a flush boundary, not within one unflushed window. -/
theorem summary_reimport_duplicates_note :
    ((allNotes (runState (import_summaries COMMIT_BATCH Session.init 0 0
        [dupSummaryRow, dupSummaryRow]))).filter
          (fun n => n.patient_id == 1)).length = 2 ∧
    (runState (import_summaries COMMIT_BATCH Session.init 0 0
        [dupSummaryRow, dupSummaryRow])).flushed.patients.length = 1 := by
  refine ⟨?_, ?_⟩ <;> decide

/-- C7: the key extractor never raises (it is a total function), parses
integers, integer strings and float-artifact strings to the same integer,
and returns `None` exactly when the key column is absent, `None`/NA, or
fails the tolerant numeric parse (a datetime cell is non-numeric). -/
theorem extract_key_tolerant :
    get_mrn_from_row [(keyColumn, Cell.int 2000)] = some 2000 ∧
    get_mrn_from_row [(keyColumn, Cell.str "2000")] = some 2000 ∧
    get_mrn_from_row [(keyColumn, Cell.str "2000.0")] = some 2000 ∧
    get_mrn_from_row [] = Option.none ∧
    get_mrn_from_row [(keyColumn, Cell.noneV)] = Option.none ∧
    get_mrn_from_row [(keyColumn, Cell.na)] = Option.none ∧
    get_mrn_from_row [(keyColumn, Cell.str "")] = Option.none ∧
    get_mrn_from_row [(keyColumn, Cell.str "abc")] = Option.none ∧
    ∀ r : Row, get_mrn_from_row r = Option.none ↔
      (rowGet r keyColumn = Option.none ∨
        rowGet r keyColumn = some Cell.noneV ∨
        rowGet r keyColumn = some Cell.na ∨
        (∃ y m d hh mi ss, rowGet r keyColumn = some (Cell.dt y m d hh mi ss)) ∨
        (∃ t, rowGet r keyColumn = some (Cell.str t) ∧
          pyIntOfStr t = Option.none ∧ pyFloatTruncOfStr t = Option.none)) := by
  refine ⟨by decide, by decide, by decide, by decide, by decide, by decide,
    by decide, by decide, ?_⟩
  intro r
  cases h : rowGet r keyColumn with
  | none => simp [get_mrn_from_row, h]
  | some c =>
      cases c with
      | noneV => simp [get_mrn_from_row, h]
      | na => simp [get_mrn_from_row, h]
      | int n => simp [get_mrn_from_row, h]
      | dt y m d hh mi ss => simp [get_mrn_from_row, h]
      | str t =>
          cases hi : pyIntOfStr t with
          | some v => simp [get_mrn_from_row, h, hi]
          | none =>
              cases hf : pyFloatTruncOfStr t with
              | some v => simp [get_mrn_from_row, h, hi, hf]
              | none => simp [get_mrn_from_row, h, hi, hf]

theorem nursingRowRecords_length (pid : Nat) (ts : DT) (r : Row) :
    (nursingRowRecords pid ts r).length =
      (if cleanCol r "類別" ≠ "" ∧ cleanCol r "數值紀錄" ≠ "" then 1 else 0) +
      (soapMapping.filter fun cr => cleanCol r cr.1 != "").length := by
  unfold nursingRowRecords soapMapping
  by_cases hS : cleanCol r "RECORD_S" = "" <;>
    by_cases hO : cleanCol r "RECORD_O" = "" <;>
      by_cases hI : cleanCol r "RECORD_I" = "" <;>
        by_cases hE : cleanCol r "RECORD_E" = "" <;>
          by_cases hN : cleanCol r "RECORD_N" = "" <;>
            by_cases hV : cleanCol r "類別" ≠ "" ∧ cleanCol r "數值紀錄" ≠ "" <;>
              simp [List.filterMap_cons, List.filter_cons, hS, hO, hI, hE, hN, hV]

theorem stageResult_ok_shape (batch ins sk : Nat) (s2 s' : Session)
    (ins' sk' : Nat)
    (h : stageResult batch s2 ins sk = Except.ok (s', ins', sk')) :
    ins' = ins ∧ sk' = sk ∧ allNotes s' = allNotes s2 ∧
    allConsults s' = allConsults s2 ∧ allNursing s' = allNursing s2 := by
  unfold stageResult at h
  split at h <;>
    simp only [Except.ok.injEq, Prod.mk.injEq, reduceCtorEq] at h
  rename_i sOk hok
  obtain ⟨h1, h2, h3⟩ := h
  subst h1 h2 h3
  have := maybe_commit_ok_all batch ins s2 sOk hok
  exact ⟨rfl, rfl, this.1, this.2.1, this.2.2⟩

/-- C5: per successfully-timestamped nursing row the emitted records all
share the row's composed timestamp; there are at most six of them; their
number is one for the VitalSign record — present exactly when both the
category and value columns clean to non-empty, with a structured content
string embedding both — plus one per non-empty SOAP column; the inserted
counter grows by exactly that number; and a row with both vital columns
non-empty and exactly two non-empty SOAP columns yields exactly three
records. -/
theorem nursing_row_emits_vital_and_soap :
    (∀ pid ts r,
      (nursingRowRecords pid ts r).length ≤ 6 ∧
      (∀ rec ∈ nursingRowRecords pid ts r, rec.record_time = ts) ∧
      (nursingRowRecords pid ts r).length =
        (if cleanCol r "類別" ≠ "" ∧ cleanCol r "數值紀錄" ≠ "" then 1 else 0) +
        (soapMapping.filter fun cr => cleanCol r cr.1 != "").length ∧
      ((cleanCol r "類別" ≠ "" ∧ cleanCol r "數值紀錄" ≠ "") ↔
        NursingNote.mk pid ts "VitalSign"
          ("type:" ++ cleanCol r "類別" ++ "|value:" ++ cleanCol r "數值紀錄")
          IMPORT_USER_ID ∈ nursingRowRecords pid ts r)) ∧
    (∀ batch ins sk (s : Session) r mrn ts s' ins' sk',
      get_mrn_from_row r = some mrn → composedTs r = some ts →
      nursingRowAction batch s ins sk r = Except.ok (s', ins', sk') →
      ins' = ins +
        (nursingRowRecords (get_or_create_patient s mrn).1.id ts r).length) ∧
    (∀ pid ts r, cleanCol r "類別" ≠ "" → cleanCol r "數值紀錄" ≠ "" →
      (soapMapping.filter fun cr => cleanCol r cr.1 != "").length = 2 →
      (nursingRowRecords pid ts r).length = 3) := by
  have hmem : ∀ pid ts r rec, rec ∈ nursingRowRecords pid ts r →
      rec.record_time = ts := by
    intro pid ts r rec hrec
    unfold nursingRowRecords at hrec
    rcases List.mem_append.mp hrec with hv | hsoap
    · split at hv
      · rcases List.mem_singleton.mp hv with rfl
        rfl
      · exact absurd hv (List.not_mem_nil rec)
    · obtain ⟨cr, _, hf⟩ := List.mem_filterMap.mp hsoap
      dsimp only at hf
      split at hf
      · cases Option.some.injEq .. ▸ hf with
        | refl => rfl
      · exact absurd hf (by simp)
  refine ⟨?_, ?_, ?_⟩
  · intro pid ts r
    refine ⟨?_, hmem pid ts r, nursingRowRecords_length pid ts r, ?_⟩
    · rw [nursingRowRecords_length pid ts r]
      have h5 : (soapMapping.filter fun cr => cleanCol r cr.1 != "").length ≤ 5 :=
        List.length_filter_le _ _
      split <;> omega
    · constructor
      · intro hv
        unfold nursingRowRecords
        dsimp only
        rw [if_pos hv]
        exact List.mem_append_left _ (List.mem_singleton.mpr rfl)
      · intro hmemV
        by_contra hv
        unfold nursingRowRecords at hmemV
        try dsimp only at hmemV
        rw [if_neg hv] at hmemV
        rcases List.mem_append.mp hmemV with hv' | hsoap
        · exact absurd hv' (List.not_mem_nil _)
        · obtain ⟨cr, hcr, hf⟩ := List.mem_filterMap.mp hsoap
          try dsimp only at hf
          split at hf
          · have htype := congrArg NursingNote.record_type (Option.some.inj hf)
            dsimp at htype
            simp only [soapMapping, List.mem_cons, List.not_mem_nil, or_false]
              at hcr
            rcases hcr with h | h | h | h | h <;> rw [h] at htype <;>
              exact absurd htype (by decide)
          · exact absurd hf (by simp)
  · intro batch ins sk s r mrn ts s' ins' sk' hmrn hts hact
    unfold nursingRowAction at hact
    rcases hg : get_or_create_patient s mrn with ⟨p, s1⟩
    simp only [hmrn, hg, hts] at hact
    have := stageResult_ok_shape _ _ _ _ _ _ _ hact
    exact this.1
  · intro pid ts r hv1 hv2 h2
    rw [nursingRowRecords_length pid ts r, if_pos ⟨hv1, hv2⟩, h2]

/-- Witness for C5: the concrete 1-vital + 2-SOAP row yields exactly three
records. -/
theorem nursing_row_emits_vital_and_soap_witness :
    (nursingRowRecords 1 ⟨2024, 1, 1, 9, 30, 0⟩ nursingThreeRow).length = 3 :=
  nursing_row_emits_vital_and_soap.2.2 1 ⟨2024, 1, 1, 9, 30, 0⟩ nursingThreeRow
    (by decide) (by decide) (by decide)

/-- C6: the time column is normalized by stripping colons, then a trailing
".0", then zero-padding to four digits — "930", "09:30" and "930.0" all
become "0930", and with date "20240101" compose to 2024-01-01T09:30:00 —
and, for a row whose key resolves, the nursing importer counts the row
skipped with nothing staged beyond patient resolution exactly when the
composed date-plus-time string fails to parse as YYYYMMDDHHMM. -/
theorem nursing_time_normalization_and_skip :
    normalizeTime "930" = "0930" ∧
    normalizeTime "09:30" = "0930" ∧
    normalizeTime "930.0" = "0930" ∧
    composedTs [("日期", Cell.str "20240101"), ("時間", Cell.str "930")] =
      some ⟨2024, 1, 1, 9, 30, 0⟩ ∧
    ∀ batch ins sk (s : Session) r mrn, get_mrn_from_row r = some mrn →
      (composedTs r = Option.none →
        nursingRowAction batch s ins sk r =
          Except.ok ((get_or_create_patient s mrn).2, ins, sk + 1)) ∧
      (∀ ts s' ins' sk', composedTs r = some ts →
        nursingRowAction batch s ins sk r = Except.ok (s', ins', sk') →
        sk' = sk) := by
  refine ⟨by decide, by decide, by decide, by decide, ?_⟩
  intro batch ins sk s r mrn hmrn
  rcases hg : get_or_create_patient s mrn with ⟨p, s1⟩
  constructor
  · intro hnone
    unfold nursingRowAction
    simp [hmrn, hg, hnone]
  · intro ts s' ins' sk' hts hact
    unfold nursingRowAction at hact
    simp only [hmrn, hg, hts] at hact
    exact (stageResult_ok_shape _ _ _ _ _ _ _ hact).2.1

/-- Witness for C6: the bad-time row is counted skipped, nothing staged
past patient resolution. -/
theorem nursing_time_normalization_and_skip_witness :
    nursingRowAction 2000 Session.init 0 0 nursingBadTimeRow =
      Except.ok ((get_or_create_patient Session.init 2000).2, 0, 0 + 1) :=
  (nursing_time_normalization_and_skip.2.2.2.2 2000 0 0 Session.init
      nursingBadTimeRow 2000 (by decide)).1 (by decide)

/-- C9: for a consultation row whose key resolves, the row is skipped
(counted skipped, nothing staged beyond patient resolution) exactly when
the reply-timestamp fails tolerant parsing or the reply-content cleans to
empty; otherwise a new ConsultationRecord is appended — never
deduplicated, the append is unconditional on existing records — with the
nurse-confirmation field equal to the content and status "confirmed". -/
theorem consult_row_skip_iff_and_append :
    ∀ batch ins sk (s : Session) r mrn, get_mrn_from_row r = some mrn →
      (pdToDatetime (rowGet r "回覆時間") = Option.none →
        consultRowAction batch s ins sk r =
          Except.ok ((get_or_create_patient s mrn).2, ins, sk + 1)) ∧
      (∀ ts, pdToDatetime (rowGet r "回覆時間") = some ts →
        (cleanCol r "回覆內容" = "" →
          consultRowAction batch s ins sk r =
            Except.ok ((get_or_create_patient s mrn).2, ins, sk + 1)) ∧
        (cleanCol r "回覆內容" ≠ "" → s.oracle = [] →
          ∃ s', consultRowAction batch s ins sk r =
              Except.ok (s', ins + 1, sk) ∧
            allConsults s' =
              allConsults (get_or_create_patient s mrn).2 ++
                [⟨(get_or_create_patient s mrn).1.id, ts,
                  cleanCol r "回覆內容", cleanCol r "回覆內容",
                  IMPORT_USER_ID, "confirmed"⟩])) := by
  intro batch ins sk s r mrn hmrn
  rcases hg : get_or_create_patient s mrn with ⟨p, s1⟩
  refine ⟨?_, ?_⟩
  · intro hnone
    unfold consultRowAction
    simp [hmrn, hg, hnone]
  · intro ts hts
    refine ⟨?_, ?_⟩
    · intro hempty
      unfold consultRowAction
      simp [hmrn, hg, hts, hempty]
    · intro hne hOracle
      have htr := goc_trace s mrn
      rw [hg] at htr
      have h1or : s1.oracle = [] := by
        rw [show s1.oracle = s.oracle from htr.2.2]
        exact hOracle
      obtain ⟨sOk, hok⟩ := maybe_commit_ok_of_no_failure batch (ins + 1)
        { s1 with pending := { s1.pending with consults :=
            s1.pending.consults ++ [⟨p.id, ts, cleanCol r "回覆內容",
              cleanCol r "回覆內容", IMPORT_USER_ID, "confirmed"⟩] } } h1or
      refine ⟨sOk, ?_, ?_⟩
      · unfold consultRowAction
        simp only [hmrn, hg, hts]
        rw [if_neg hne]
        unfold stageResult
        rw [hok]
      · have hall := maybe_commit_ok_all batch (ins + 1) _ sOk hok
        rw [hall.2.1]
        simp [allConsults]

/-- Witness for C9: the complete consultation row appends exactly one
record with duplicated confirmation and status "confirmed". -/
theorem consult_row_skip_iff_and_append_witness :
    ∃ s', consultRowAction 2000 Session.init 0 0 consultRow =
        Except.ok (s', 0 + 1, 0) ∧
      allConsults s' =
        allConsults (get_or_create_patient Session.init 2000).2 ++
          [⟨(get_or_create_patient Session.init 2000).1.id,
            ⟨2024, 3, 5, 14, 20, 33⟩, cleanCol consultRow "回覆內容",
            cleanCol consultRow "回覆內容", IMPORT_USER_ID, "confirmed"⟩] :=
  ((consult_row_skip_iff_and_append 2000 0 0 Session.init consultRow 2000
      (by decide)).2 ⟨2024, 3, 5, 14, 20, 33⟩ (by decide)).2 (by decide) rfl

/-- Witness for C10: a poisoned cache entry (key 2000 pointing at the
nonexistent id 7) over an empty store falls through and creates the
placeholder patient. -/
theorem stale_cache_falls_back_to_store_witness :
    (get_or_create_patient { Session.init with cache := [((2000 : Int), 7)] }
        2000).1 = mkDefaultPatient 1 2000 ∧
    (get_or_create_patient { Session.init with cache := [((2000 : Int), 7)] }
        2000).2.flushed.patients = [mkDefaultPatient 1 2000] := by
  have h := (stale_cache_falls_back_to_store
      { Session.init with cache := [((2000 : Int), 7)] } 2000 7
      (by decide) (by decide)).2.2 (by decide)
  exact ⟨h.1, by simpa using h.2⟩

end PrivNurse
